import Mathlib

/-!
Verification development for a pure-python TIFF float32 reader/writer
(`src/lzw.py`, `src/tiff.py`).  The Python 2 source is shallowly embedded:
byte strings become `List Nat` (each entry a byte value `< 256`), machine
arithmetic is `Nat`/`Int` with explicit `% 2 ^ w`, Python exceptions
(`KeyError`, `AssertionError`, `struct.error`, ...) become `Except String`
errors, and the `while` loop of `lzw.decompress` is driven by explicit fuel
(each iteration advances `bitoffset` by at least 9 bits, so
`length + 2` iterations are enough for every run that terminates in Python;
runs in which Python would loop forever surface as a distinguished
`"NonTermination"` error).
-/

set_option maxRecDepth 100000

namespace Pytiff

/-! ## src/lzw.py : constants -/

def CLEAR_CODE : Nat := 256
def END_OF_INFO_CODE : Nat := 257
def START_BIT_WIDTH : Nat := 9
def MAX_BIT_WIDTH : Nat := 12

/-! ## src/lzw.py : decompress -/

/-- `bytelist[i]`, with the zero padding that `decompress` applies to the
4-byte window (`word += (4 - len(word)) * '\x00'`): indices past the end of
the buffer read as `0`, exactly like the padded window in the source. -/
def byteAt (bytelist : List Nat) (i : Nat) : Nat := bytelist.getD i 0

/-- One code extracted from the bit stream, mirroring
`word = bytelist[startbyte:startbyte+4]` (zero padded),
`shift = 32 - (bitoffset - bitoffset/8*8) - bitwidth`,
`code = (struct.unpack(">I", word)[0] >> shift) & ((1 << bitwidth) - 1)`.
Big-endian 32-bit assembly is written out as a sum; `>> shift` is
`/ 2 ^ shift` and the mask is `% 2 ^ bitwidth`. -/
def readCode (bytelist : List Nat) (bitoffset bitwidth : Nat) : Nat :=
  let startbyte := bitoffset / 8
  let word := byteAt bytelist startbyte * 2 ^ 24 + byteAt bytelist (startbyte + 1) * 2 ^ 16 +
    byteAt bytelist (startbyte + 2) * 2 ^ 8 + byteAt bytelist (startbyte + 3)
  let shift := 32 - (bitoffset - bitoffset / 8 * 8) - bitwidth
  word / 2 ^ shift % 2 ^ bitwidth

/-- State of the `decompress` loop (`lookup`, `lastbytes`, `outputbytes`,
`bitoffset`, `bitwidth`).  In the source `lookup` is the heterogeneous list
`map(chr, range(0x100)) + [CLEAR_CODE, END_OF_INFO_CODE]`; the two trailing
non-string entries are never read as strings (codes 256/257 are intercepted
first), so they are modelled by the placeholder singletons `[256]`, `[257]`
— only their presence in the length `0x102` matters. -/
structure DecompressState where
  lookup : List (List Nat)
  lastbytes : Option (List Nat)
  outputbytes : List Nat
  bitoffset : Nat
  bitwidth : Nat
deriving Repr

/-- `map(chr, range(0x100)) + [CLEAR_CODE, END_OF_INFO_CODE]` (length 0x102). -/
def initLookup : List (List Nat) :=
  (List.range 0x100).map (fun i => [i]) ++ [[CLEAR_CODE], [END_OF_INFO_CODE]]

def initDecompressState : DecompressState :=
  { lookup := initLookup, lastbytes := none, outputbytes := [],
    bitoffset := 0, bitwidth := START_BIT_WIDTH }

/-- Result of one iteration of the `while` body of `decompress`. -/
inductive StepResult where
  | cont (s : DecompressState)
  | done (output : List Nat)
  | fail (msg : String)
deriving Repr

/-- One iteration of the `while` body of `decompress` (src/lzw.py lines
35-68), translated branch for branch.  Python errors become `.fail`:
the `assert` after `END_OF_INFO_CODE`, the `assert code == len(lookup)`,
the `TypeError` from `lastbytes + ...` when `lastbytes is None`, and the
`IndexError` from `lookedup[0]` / `lastbytes[0]` on an empty string.
The end-of-info assertion `(bitoffset + bitwidth - 1) / 8 == len(bytelist) - 1`
uses Python's floor division on ints, i.e. `Int.fdiv`. -/
def decompressStep (bytelist : List Nat) (s : DecompressState) : StepResult :=
  let code := readCode bytelist s.bitoffset s.bitwidth
  if code = CLEAR_CODE then
    .cont { s with bitoffset := s.bitoffset + s.bitwidth, bitwidth := START_BIT_WIDTH,
                   lastbytes := none, lookup := s.lookup.take 0x102 }
  else if code = END_OF_INFO_CODE then
    if ((s.bitoffset : Int) + s.bitwidth - 1).fdiv 8 = (bytelist.length : Int) - 1 then
      .done s.outputbytes
    else
      .fail "End of info code, but not at the end of the string"
  else
    let s1 : DecompressState := { s with bitoffset := s.bitoffset + s.bitwidth }
    let lookedupE : Except String (List Nat) :=
      if code < s1.lookup.length then
        .ok (s1.lookup.getD code [])
      else if code = s1.lookup.length then
        -- special case: repeat the first
        match s1.lastbytes with
        | none => .error "TypeError"          -- None + str
        | some lb =>
          match lb.head? with
          | none => .error "IndexError"       -- lastbytes[0] on empty string
          | some h0 => .ok (lb ++ [h0])
      else
        .error "AssertionError: code == len(lookup)"
    match lookedupE with
    | .error msg => .fail msg
    | .ok lookedup =>
      match lookedup.head? with
      | none =>
        -- `lookedup[0]` is demanded below both by the dictionary append (when
        -- `lastbytes` is set) and, in reachable states, never on an empty
        -- string; an empty `lookedup` with `lastbytes` set would raise
        -- IndexError in Python.  With `lastbytes = None` Python appends
        -- nothing and `lookedup[0]` is never evaluated, so an empty
        -- `lookedup` only updates the state.
        match s1.lastbytes with
        | some _ => .fail "IndexError"
        | none =>
          let s2 := { s1 with lastbytes := some lookedup,
                              outputbytes := s1.outputbytes ++ lookedup }
          if s2.lookup.length = 2 ^ s2.bitwidth - 1 ∧ s2.bitwidth < MAX_BIT_WIDTH then
            .cont { s2 with bitwidth := s2.bitwidth + 1 }
          else
            .cont s2
      | some h0 =>
        let lookup2 := match s1.lastbytes with
          | some lb => s1.lookup ++ [lb ++ [h0]]
          | none => s1.lookup
        let s2 := { s1 with lookup := lookup2, lastbytes := some lookedup,
                            outputbytes := s1.outputbytes ++ lookedup }
        if s2.lookup.length = 2 ^ s2.bitwidth - 1 ∧ s2.bitwidth < MAX_BIT_WIDTH then
          .cont { s2 with bitwidth := s2.bitwidth + 1 }
        else
          .cont s2

/-- The `while bitoffset / 8 != len(bytelist) - 1` loop of `decompress`,
with explicit fuel.  The loop guard compares Python ints, so the right hand
side may be `-1` (empty input); both sides are read as `Int`. -/
def decompressLoop (fuel : Nat) (bytelist : List Nat) (s : DecompressState) :
    Except String (List Nat) :=
  match fuel with
  | 0 => .error "NonTermination"
  | fuel + 1 =>
    if (s.bitoffset / 8 : Int) = (bytelist.length : Int) - 1 then
      .ok s.outputbytes
    else
      match decompressStep bytelist s with
      | .cont s' => decompressLoop fuel bytelist s'
      | .done output => .ok output
      | .fail msg => .error msg

/-- `lzw.decompress` (src/lzw.py lines 23-71).  Every loop iteration advances
`bitoffset` by `bitwidth ≥ 9` bits, so at most `len + 1` iterations can run
before `bitoffset / 8` exceeds every byte position of the buffer; fuel
`len + 2` therefore reproduces every terminating Python run. -/
def decompress (bytelist : List Nat) : Except String (List Nat) :=
  decompressLoop (bytelist.length + 2) bytelist initDecompressState

/-! ## src/lzw.py : compress -/

/-- Encoder dictionary.  The source keeps a trie of nested dicts
(`lookup = {chr(i): {'value': i} ...}`, children added per byte); walking the
trie from the root along a byte string and asking for `'value'` is exactly a
finite map from byte strings to codes, which is how it is modelled here
(`currentlookup` becomes the byte string `currentmatch` of the path walked
from the root; the root itself is the empty string, which has no `'value'`
entry — looking it up is the `KeyError` of the source). -/
def initCompressLookup : List (List Nat × Nat) :=
  (List.range 0x100).map (fun i => ([i], i))

def dictLookup (d : List (List Nat × Nat)) (k : List Nat) : Option Nat :=
  (d.find? (fun p => p.1 = k)).map (fun p => p.2)

/-- State of the `for c in bytelist` loop of `compress`. -/
structure CompressState where
  lookup : List (List Nat × Nat)
  lookuplength : Nat
  currentmatch : List Nat
  bitwidth : Nat
  lookupmaxlength : Nat
  codes : List (Nat × Nat)
deriving Repr

def initCompressState : CompressState :=
  { lookup := initCompressLookup, lookuplength := 0x102, currentmatch := [],
    bitwidth := START_BIT_WIDTH, lookupmaxlength := 2 ^ START_BIT_WIDTH,
    codes := [(CLEAR_CODE, START_BIT_WIDTH)] }

/-- One iteration of the `for c in bytelist` loop of `compress`
(src/lzw.py lines 85-112): extend the current match while the extension is
in the dictionary, otherwise emit the code of the current match, insert the
extension, grow the width / emit CLEAR and reset at the thresholds, and
restart matching from `c`. -/
def compressChar (s : CompressState) (c : Nat) : Except String CompressState :=
  if (dictLookup s.lookup (s.currentmatch ++ [c])).isSome then
    .ok { s with currentmatch := s.currentmatch ++ [c] }
  else
    match dictLookup s.lookup s.currentmatch with
    | none => .error "KeyError"
    | some value =>
      let codes := s.codes ++ [(value, s.bitwidth)]
      let lookup := s.lookup ++ [(s.currentmatch ++ [c], s.lookuplength)]
      let lookuplength := s.lookuplength + 1
      if lookuplength = s.lookupmaxlength then
        if s.bitwidth < MAX_BIT_WIDTH then
          .ok { lookup := lookup, lookuplength := lookuplength, currentmatch := [c],
                bitwidth := s.bitwidth + 1, lookupmaxlength := 2 ^ (s.bitwidth + 1),
                codes := codes }
        else
          .ok { lookup := initCompressLookup, lookuplength := 0x102, currentmatch := [c],
                bitwidth := START_BIT_WIDTH, lookupmaxlength := 2 ^ START_BIT_WIDTH,
                codes := codes ++ [(CLEAR_CODE, s.bitwidth)] }
      else
        .ok { lookup := lookup, lookuplength := lookuplength, currentmatch := [c],
              bitwidth := s.bitwidth, lookupmaxlength := s.lookupmaxlength,
              codes := codes }

/-- Big-endian bytes of `v`, `n` bytes wide (the `("%0{2n}x" % v)` +
`binascii.a2b_hex` of the source, leading zeros preserved). -/
def natToBytesBE (n : Nat) (v : Nat) : List Nat :=
  (List.range n).map (fun i => v / 2 ^ (8 * (n - 1 - i)) % 256)

/-- Bit packing of the `(code, bitwidth)` list (src/lzw.py lines 114-135).
The source shifts every code into one growing integer, flushing it to hex
exactly at byte boundaries and finally left-padding the most significant
end onto a byte boundary; concatenating those flushes equals accumulating
everything into a single integer (`acc * 2 ^ w + code`, codes are `< 2 ^ w`
so `<< | `= `* +`) and emitting `totalwidth / 8` big-endian bytes after the
final zero-bit padding. -/
def packCodes (codes : List (Nat × Nat)) : List Nat :=
  let vw := codes.foldl (fun (p : Nat × Nat) cw => (p.1 * 2 ^ cw.2 + cw.1, p.2 + cw.2)) (0, 0)
  let padded := if vw.2 % 8 = 0 then vw else (vw.1 * 2 ^ (8 - vw.2 % 8), vw.2 + (8 - vw.2 % 8))
  natToBytesBE (padded.2 / 8) padded.1

/-- `lzw.compress` (src/lzw.py lines 74-136).  After the character loop the
source emits `currentlookup['value']` — for empty input `currentlookup` is
still the root node, which has no `'value'` key, hence `KeyError`. -/
def compress (bytelist : List Nat) : Except String (List Nat) := do
  let s ← bytelist.foldlM compressChar initCompressState
  match dictLookup s.lookup s.currentmatch with
  | none => .error "KeyError"
  | some value =>
    let codes := s.codes ++ [(value, s.bitwidth), (END_OF_INFO_CODE, s.bitwidth)]
    .ok (packCodes codes)

/-- `decompress(compress(x))`, the round trip named by the docstring of
`compress`. -/
def lzwRoundtrip (bytelist : List Nat) : Except String (List Nat) :=
  compress bytelist >>= decompress

/-! ## src/tiff.py : float predictor transform

A strip of `R` rows, `W` pixels per row, `C` channels per pixel and `S`
bytes per sample is a flat byte buffer of length `R * (W * C * S)` in which
byte `s` of channel `c` of pixel `w` of row `r` sits at
`r * (W*C*S) + (w*C + c) * S + s` (little-endian float32 storage, `S = 4`,
`C = nrchannels`).  All numpy reshapes below act on this flat buffer, so
every step is a pure re-indexing that is written out explicitly. -/

/-- Index map of the write-side rearrangement (src/tiff.py lines 216-220):
`stripbytes.reshape((nrrows, width*nrchannels, bytespersample))[:, :, ::-1]
 .transpose(0, 2, 1).reshape((nrrows, width*bytespersample, nrchannels))`.
After the transpose the flat in-row position is `t = s * (W*C) + q` where
`s` is the (reversed) byte plane and `q = w*C + c` the sample position, and
the value comes from input position `q * S + (S-1-s)` of the same row. -/
def fwdIndex (W C S : Nat) (u : Nat) : Nat :=
  let r := u / (W * C * S)
  let t := u % (W * C * S)
  let s := t / (W * C)
  let q := t % (W * C)
  r * (W * C * S) + q * S + (S - 1 - s)

/-- `reshapedcumsummedstrip` of `write_tiff` (src/tiff.py lines 216-220):
the byte-plane rearrangement of the raw strip bytes. -/
def reshapedcumsummedstrip (R W C S : Nat) (strip : List Nat) : List Nat :=
  List.ofFn (fun u : Fin (R * (W * C * S)) => strip.getD (fwdIndex W C S u.val) 0)

/-- `predictedstrip` of `write_tiff` (src/tiff.py lines 222-226):
`numpy.diff(reshapedcumsummedstrip, axis=1)` prepended with the first
column.  Axis 1 of the `(nrrows, width*bytespersample, nrchannels)` view
steps by `C` in the flat buffer, so position `t = j*C + k` of a row keeps
its value when `j = 0` (i.e. `t < C`) and otherwise becomes the wrapping
uint8 difference with position `t - C`. -/
def predictedstrip (R W C S : Nat) (strip : List Nat) : List Nat :=
  let X := reshapedcumsummedstrip R W C S strip
  List.ofFn (fun u : Fin (R * (W * C * S)) =>
    if u.val % (W * C * S) < C then X.getD u.val 0
    else (X.getD u.val 0 + 256 - X.getD (u.val - C) 0) % 256)

/-- `cumsummedstrip` of `read_tiff` (src/tiff.py lines 156-158):
`predictedstrip.reshape((nrrows, width*bytespersample, nrchannels))
 .cumsum(1, dtype=numpy.uint8)` — the wrapping uint8 running sum along
axis 1, i.e. over `j` with the channel residue `k` fixed. -/
def cumsummedstrip (R W C S : Nat) (pred : List Nat) : List Nat :=
  List.ofFn (fun u : Fin (R * (W * C * S)) =>
    let r := u.val / (W * C * S)
    let t := u.val % (W * C * S)
    let j := t / C
    let k := t % C
    ((List.range (j + 1)).map (fun i => pred.getD (r * (W * C * S) + i * C + k) 0)).sum % 256)

/-- Index map of the read-side un-rearrangement (src/tiff.py lines 161-166):
`cumsummedstrip.reshape((nrrows, bytespersample, width*nrchannels))
 [:, ::-1, :].transpose(0, 2, 1).flatten()`.  Output position `q*S + s` of a
row takes the cumsummed value at in-row position `(S-1-s) * (W*C) + q`. -/
def invIndex (W C S : Nat) (v : Nat) : Nat :=
  let r := v / (W * C * S)
  let t := v % (W * C * S)
  let q := t / S
  let s := t % S
  r * (W * C * S) + (S - 1 - s) * (W * C) + q

/-- `strip` of `read_tiff` (src/tiff.py lines 161-166): undo the prediction
(cumulative sum), then un-reverse and re-interleave the byte planes. -/
def unpredictedstrip (R W C S : Nat) (pred : List Nat) : List Nat :=
  let Y := cumsummedstrip R W C S pred
  List.ofFn (fun v : Fin (R * (W * C * S)) => Y.getD (invIndex W C S v.val) 0)

/-! ## src/tiff.py : constants and the FIELD table -/

def VT_BYTE : Nat := 1
def VT_ASCII : Nat := 2
def VT_SHORT : Nat := 3
def VT_LONG : Nat := 4
def VT_RATIONAL : Nat := 5

def DIRECTORY_ENTRY_LENGTH : Nat := 12
def TIFF_HEADER : List Nat := [0x49, 0x49, 0x2a, 0x00]
def END_OF_DIRECTORY_PADDING : List Nat := [0x00, 0x00, 0x00, 0x00]

def COMPRESSION_NONE : Nat := 1
def COMPRESSION_LZW : Nat := 5
def PREDICTOR_NONE : Nat := 1
def PREDICTOR_FLOAT : Nat := 3
def EXTRASAMPLES_ALPHA : Nat := 1
def PHOTOMETRIC_RGB : Nat := 2
def SAMPLEFORMAT_FLOAT : Nat := 3

/-- A dynamically typed Python value, as far as the tag machinery of
src/tiff.py needs one: an int, a byte string, a (numerator, denominator)
tuple, or a list of values. -/
inductive PyVal where
  | int (n : Int)
  | str (s : List Nat)
  | pair (a b : Int)
  | list (xs : List PyVal)
deriving Repr

mutual

/-- Structural equality of `PyVal`s (Python `==` on these value shapes;
Python `1 == "1"` and list/tuple cross-comparisons are `False`, as here). -/
def pyValEq : PyVal → PyVal → Bool
  | .int a, .int b => a == b
  | .str a, .str b => a == b
  | .pair a b, .pair c d => a == c && b == d
  | .list xs, .list ys => pyValListEq xs ys
  | _, _ => false

def pyValListEq : List PyVal → List PyVal → Bool
  | [], [] => true
  | x :: xs, y :: ys => pyValEq x y && pyValListEq xs ys
  | _, _ => false

end

mutual

theorem pyValEq_iff : ∀ a b : PyVal, pyValEq a b = true ↔ a = b
  | .int _, .int _ => by simp [pyValEq]
  | .str _, .str _ => by simp [pyValEq]
  | .pair _ _, .pair _ _ => by simp [pyValEq]
  | .list xs, .list ys => by
    rw [pyValEq, PyVal.list.injEq]
    exact pyValListEq_iff xs ys
  | .int _, .str _ => by simp [pyValEq]
  | .int _, .pair _ _ => by simp [pyValEq]
  | .int _, .list _ => by simp [pyValEq]
  | .str _, .int _ => by simp [pyValEq]
  | .str _, .pair _ _ => by simp [pyValEq]
  | .str _, .list _ => by simp [pyValEq]
  | .pair _ _, .int _ => by simp [pyValEq]
  | .pair _ _, .str _ => by simp [pyValEq]
  | .pair _ _, .list _ => by simp [pyValEq]
  | .list _, .int _ => by simp [pyValEq]
  | .list _, .str _ => by simp [pyValEq]
  | .list _, .pair _ _ => by simp [pyValEq]

theorem pyValListEq_iff : ∀ xs ys : List PyVal, pyValListEq xs ys = true ↔ xs = ys
  | [], [] => by simp [pyValListEq]
  | x :: xs, y :: ys => by
    rw [pyValListEq, Bool.and_eq_true, pyValEq_iff x y, pyValListEq_iff xs ys,
      List.cons.injEq]
  | [], _ :: _ => by simp [pyValListEq]
  | _ :: _, [] => by simp [pyValListEq]

end

instance : DecidableEq PyVal := fun a b => decidable_of_iff _ (pyValEq_iff a b)

/-- The transform slot of a `FIELD` row: `_single_param` or `_id`. -/
inductive FieldTransform where
  | singleParam
  | idT
deriving Repr, DecidableEq

/-- One row of the `FIELD` table: name, tag id, transform, and the optional
acceptable-value list. -/
structure FieldInfo where
  name : String
  tag : Nat
  transform : FieldTransform
  acceptable : Option (List PyVal)
deriving Repr

/-- The `FIELD` table of src/tiff.py (lines 47-68). -/
def FIELD : List FieldInfo := [
  ⟨"width", 0x100, .singleParam, none⟩,
  ⟨"height", 0x101, .singleParam, none⟩,
  ⟨"bitspersample", 0x102, .idT, some [.list [.int 32, .int 32, .int 32, .int 32]]⟩,
  ⟨"compression", 0x103, .singleParam, some [.int (COMPRESSION_LZW : Nat)]⟩,
  ⟨"photometric", 0x106, .singleParam, some [.int (PHOTOMETRIC_RGB : Nat)]⟩,
  ⟨"stripoffsets", 0x111, .idT, none⟩,
  ⟨"orientation", 0x112, .singleParam, some [.int 1]⟩,
  ⟨"samplesperpixel", 0x115, .singleParam, some [.int 4]⟩,
  ⟨"rowsperstrip", 0x116, .singleParam, none⟩,
  ⟨"stripbytecounts", 0x117, .idT, none⟩,
  ⟨"planarconfig", 0x11C, .singleParam, some [.int 1]⟩,
  ⟨"xposition", 0x11E, .singleParam, some [.pair 0 1]⟩,
  ⟨"yposition", 0x11F, .singleParam, some [.pair 0 1]⟩,
  ⟨"datetime", 0x132, .singleParam, none⟩,
  ⟨"predictor", 0x13D, .singleParam, some [.int (PREDICTOR_FLOAT : Nat)]⟩,
  ⟨"extrasamples", 0x152, .singleParam, some [.int (EXTRASAMPLES_ALPHA : Nat)]⟩,
  ⟨"sampleformat", 0x153, .idT, some [.list [.int 3, .int 3, .int 3, .int 3]]⟩,
  ⟨"xml", 0x2bc, .idT, none⟩]

/-- `__FIELD_BY_ID_MAP` lookup (`tag in __FIELD_BY_ID_MAP`). -/
def fieldById (tag : Nat) : Option FieldInfo := FIELD.find? (fun fi => fi.tag = tag)

/-- `VALUETYPE[valuetype][1]` (the per-element byte size); an unknown value
type is the `KeyError` of the source. -/
def valueTypeLen (valuetype : Nat) : Except String Nat :=
  if valuetype = VT_BYTE then .ok 1
  else if valuetype = VT_ASCII then .ok 1
  else if valuetype = VT_SHORT then .ok 2
  else if valuetype = VT_LONG then .ok 4
  else if valuetype = VT_RATIONAL then .ok 8
  else .error "KeyError: VALUETYPE"

/-! ## src/tiff.py : low-level byte reads (read_uint16 / read_uint32) -/

/-- `read_uint32` at an absolute position (little endian).  Python's
`struct.unpack` fails when `f.read` returns fewer bytes than requested. -/
def readU32 (f : List Nat) (pos : Nat) : Except String Nat :=
  if pos + 4 ≤ f.length then
    .ok (byteAt f pos + 256 * byteAt f (pos + 1) + 65536 * byteAt f (pos + 2) +
         16777216 * byteAt f (pos + 3))
  else .error "struct.error"

/-- `read_uint16` at an absolute position (little endian). -/
def readU16 (f : List Nat) (pos : Nat) : Except String Nat :=
  if pos + 2 ≤ f.length then .ok (byteAt f pos + 256 * byteAt f (pos + 1))
  else .error "struct.error"

/-- Two's-complement reading of a 32-bit little-endian signed int
(`struct.unpack("<i", ...)`). -/
def signed32 (n : Nat) : Int :=
  if n < 2 ^ 31 then (n : Int) else (n : Int) - 2 ^ 32

/-- `assert cond, msg` — a failed Python assert is an error. -/
def pyAssert (b : Bool) (msg : String) : Except String Unit :=
  if b then .ok () else .error msg

/-! ## src/tiff.py : read_tiff, directory parsing -/

/-- `struct.unpack("<" + length * VALUETYPE[valuetype][0], ...)` followed by
`VALUETYPE[valuetype][2]` (src/tiff.py lines 19-25 and 112-114): unpack
`length` elements of the given value type starting at `datapos` and apply
the per-type transform (BYTE: join to a byte string; ASCII: drop the
trailing NUL and split on NUL; SHORT/LONG: list of ints; RATIONAL: list of
(numerator, denominator) pairs of signed 32-bit ints). -/
def parseRawValues (f : List Nat) (valuetype datapos length : Nat) :
    Except String PyVal := do
  let typelen ← valueTypeLen valuetype
  let _ ← pyAssert (decide (datapos + length * typelen ≤ f.length)) "struct.error"
  let bytes := (f.drop datapos).take (length * typelen)
  if valuetype = VT_BYTE then
    .ok (.str bytes)
  else if valuetype = VT_ASCII then
    .ok (.list ((bytes.dropLast.splitOn 0).map .str))
  else if valuetype = VT_SHORT then
    .ok (.list ((List.range length).map (fun i =>
      .int ((byteAt bytes (2 * i) + 256 * byteAt bytes (2 * i + 1) : Nat) : Int))))
  else if valuetype = VT_LONG then
    .ok (.list ((List.range length).map (fun i =>
      .int ((byteAt bytes (4 * i) + 256 * byteAt bytes (4 * i + 1) +
             65536 * byteAt bytes (4 * i + 2) + 16777216 * byteAt bytes (4 * i + 3) : Nat) : Int))))
  else
    .ok (.list ((List.range length).map (fun i =>
      .pair (signed32 (byteAt bytes (8 * i) + 256 * byteAt bytes (8 * i + 1) +
                       65536 * byteAt bytes (8 * i + 2) + 16777216 * byteAt bytes (8 * i + 3)))
            (signed32 (byteAt bytes (8 * i + 4) + 256 * byteAt bytes (8 * i + 5) +
                       65536 * byteAt bytes (8 * i + 6) + 16777216 * byteAt bytes (8 * i + 7))))))

/-- `_single_param` (src/tiff.py lines 28-30): `assert len(v) == 1` then
`v[0]`.  On a byte string `v[0]` is a one-character string; `len` of an int
is a `TypeError`; a tuple has length 2, so the assert fails. -/
def singleParam : PyVal → Except String PyVal
  | .list [v] => .ok v
  | .list _ => .error "AssertionError: len(v) == 1"
  | .str [c] => .ok (.str [c])
  | .str _ => .error "AssertionError: len(v) == 1"
  | .pair _ _ => .error "AssertionError: len(v) == 1"
  | .int _ => .error "TypeError: len"

def applyFieldTransform : FieldTransform → PyVal → Except String PyVal
  | .singleParam, v => singleParam v
  | .idT, v => .ok v

/-- Where an entry's values live (src/tiff.py lines 109-111): out of line
behind a 4-byte pointer when `length * typelen > 4`, else inline at the
value slot of the entry itself. -/
def entryDataPos (f : List Nat) (epos length typelen : Nat) : Except String Nat :=
  if length * typelen > 4 then readU32 f (epos + 8) else .ok (epos + 8)

/-- One 12-byte directory entry (src/tiff.py lines 104-122): read tag,
value type and element count, follow the out-of-line pointer when
`length * typelen > 4`, unpack and transform the values, resolve the tag
against `FIELD`, apply the field transform and check the acceptable-value
set.  Returns the `(name, value)` pair stored into `directory`. -/
def parseEntry (f : List Nat) (directorystart i : Nat) :
    Except String (String × PyVal) := do
  let epos := directorystart + 2 + DIRECTORY_ENTRY_LENGTH * i
  let tag ← readU16 f epos
  let valuetype ← readU16 f (epos + 2)
  let length ← readU32 f (epos + 4)
  let typelen ← valueTypeLen valuetype
  let datapos ← entryDataPos f epos length typelen
  let values ← parseRawValues f valuetype datapos length
  match fieldById tag with
  | none => .error "AssertionError: Tag not found"
  | some fielddata => do
    let value ← applyFieldTransform fielddata.transform values
    match fielddata.acceptable with
    | some acc =>
      if value ∈ acc then .ok (fielddata.name, value)
      else .error "Value not acceptable"
    | none => .ok (fielddata.name, value)

/-- `directory[fielddata[0]] = value` — Python dict assignment: replace the
value of an existing key in place, otherwise append a new key. -/
def upsert (d : List (String × PyVal)) (k : String) (v : PyVal) :
    List (String × PyVal) :=
  if d.any (fun p => p.1 = k) then d.map (fun p => if p.1 = k then (k, v) else p)
  else d ++ [(k, v)]

/-- Header check plus the `for i in range(directorylength)` loop of
`read_tiff` (src/tiff.py lines 95-122), producing the `directory` dict as an
ordered association list. -/
def parseDirectory (f : List Nat) : Except String (List (String × PyVal)) := do
  let _ ← pyAssert (decide (f.take 4 = TIFF_HEADER)) "TIFF header not found"
  let directorystart ← readU32 f 4
  let directorylength ← readU16 f directorystart
  (List.range directorylength).foldlM (fun d i => do
    let nv ← parseEntry f directorystart i
    pure (upsert d nv.1 nv.2)) []

/-- `directory[name]` — missing key is a `KeyError`. -/
def getField (dir : List (String × PyVal)) (name : String) : Except String PyVal :=
  match dir.find? (fun p => p.1 = name) with
  | some p => .ok p.2
  | none => .error "KeyError: directory"

/-- Python `len` on a directory value (`TypeError` on an int). -/
def pyLen : PyVal → Except String Nat
  | .list xs => .ok xs.length
  | .str s => .ok s.length
  | .pair _ _ => .ok 2
  | .int _ => .error "TypeError: len"

/-- Numeric use of a directory value (`float(...)`, arithmetic, `seek`).
Only honest ints are accepted; Python would additionally coerce numeric
strings in `float(...)` — such exotic directories are rejected here
instead of coerced (they cannot be produced by `write_tiff`). -/
def pyToNat : PyVal → Except String Nat
  | .int n => if n < 0 then .error "ValueError: negative" else .ok n.toNat
  | _ => .error "TypeError: number"

/-- A directory value that must be a list of non-negative ints
(`bitspersample`, `stripoffsets`, `stripbytecounts` uses). -/
def pyNatList : PyVal → Except String (List Nat)
  | .list xs => xs.foldrM (fun x acc =>
      match x with
      | .int n => if n < 0 then .error "ValueError: negative" else .ok (n.toNat :: acc)
      | _ => .error "TypeError: number") []
  | _ => .error "TypeError: list"

/-- `int(math.ceil(float(height) / rowsperstrip))` (integer ceiling;
`rowsperstrip = 0` is Python's ZeroDivisionError). -/
def nrstripsOf (height rowsperstrip : Nat) : Except String Nat :=
  if rowsperstrip = 0 then .error "ZeroDivisionError"
  else .ok ((height + rowsperstrip - 1) / rowsperstrip)

/-- The cross-field asserts of `read_tiff` (src/tiff.py lines 123-129), in
source order: `len(bitspersample) == samplesperpixel`,
`len(sampleformat) == samplesperpixel`, both strip lists have
`ceil(height / rowsperstrip)` entries, and `len(FIELD) == len(directory)`. -/
def checkDirectory (dir : List (String × PyVal)) : Except String Unit := do
  let bps ← getField dir "bitspersample"
  let spp ← getField dir "samplesperpixel"
  let lenBps ← pyLen bps
  let _ ← pyAssert (decide (PyVal.int (lenBps : Nat) = spp)) "AssertionError: len(bitspersample)"
  let sf ← getField dir "sampleformat"
  let lenSf ← pyLen sf
  let _ ← pyAssert (decide (PyVal.int (lenSf : Nat) = spp)) "AssertionError: len(sampleformat)"
  let h ← getField dir "height" >>= pyToNat
  let rps ← getField dir "rowsperstrip" >>= pyToNat
  let nrstrips ← nrstripsOf h rps
  let so ← getField dir "stripoffsets"
  let lenSo ← pyLen so
  let _ ← pyAssert (decide (lenSo = nrstrips)) "AssertionError: len(stripoffsets)"
  let sbc ← getField dir "stripbytecounts"
  let lenSbc ← pyLen sbc
  let _ ← pyAssert (decide (lenSbc = nrstrips)) "AssertionError: len(stripbytecounts)"
  pyAssert (decide (FIELD.length = dir.length)) "Not all fields present"

/-- The decoded image: shape plus the raw little-endian float32 sample
bytes (floats are kept as bytes; numpy's `fromstring`/`reshape` are
byte-preserving). -/
structure TiffImage where
  height : Nat
  width : Nat
  channels : Nat
  data : List Nat
deriving Repr, DecidableEq

/-- The strip loop of `read_tiff` (src/tiff.py lines 131-170): per strip,
slice the compressed bytes, LZW-decompress, check the byte count and the
`compression`/`predictor` tags, undo the float predictor, and concatenate;
finally reinterpret as a `(height, width, samplesperpixel)` float32 array
(a numpy `reshape`, which demands the exact element count). -/
def readStrips (f : List Nat) (dir : List (String × PyVal)) :
    Except String TiffImage := do
  let h ← getField dir "height" >>= pyToNat
  let w ← getField dir "width" >>= pyToNat
  let rps ← getField dir "rowsperstrip" >>= pyToNat
  let spp ← getField dir "samplesperpixel" >>= pyToNat
  let bps ← getField dir "bitspersample" >>= pyNatList
  let so ← getField dir "stripoffsets" >>= pyNatList
  let sbc ← getField dir "stripbytecounts" >>= pyNatList
  let compression ← getField dir "compression"
  let predictor ← getField dir "predictor"
  let nrstrips ← nrstripsOf h rps
  let image ← (List.range nrstrips).foldlM (fun (acc : List Nat) stripnr => do
    let nrrows := min (h - rps * stripnr) rps
    let nrpixels := w * nrrows
    let nrbytes := nrpixels * bps.sum / 8
    let offset ← match so.get? stripnr with
      | some o => pure o
      | none => Except.error "IndexError: stripoffsets"
    let _ ← pyAssert (decide (compression = PyVal.int (COMPRESSION_LZW : Nat)))
      "AssertionError: compression == 5"
    let count ← match sbc.get? stripnr with
      | some c => pure c
      | none => Except.error "IndexError: stripbytecounts"
    let lzwstrip := (f.drop offset).take count
    let predicted ← decompress lzwstrip
    let _ ← pyAssert (decide (predicted.length = nrbytes)) "AssertionError: strip byte count"
    let _ ← pyAssert (decide (predictor = PyVal.int (PREDICTOR_FLOAT : Nat)))
      "AssertionError: predictor == 3"
    let b0 ← match bps.get? 0 with
      | some b => pure b
      | none => Except.error "IndexError: bitspersample"
    let bytespersample := b0 / 8
    let _ ← pyAssert (bps.all (fun b => b = b0))
      "Images with different number of bits per sample per channel not supported"
    let _ ← pyAssert (decide (predicted.length = nrrows * (w * spp * bytespersample)))
      "ValueError: reshape"
    pure (acc ++ unpredictedstrip nrrows w spp bytespersample predicted)) []
  let _ ← pyAssert (decide (image.length = h * w * spp * 4)) "ValueError: reshape"
  .ok ⟨h, w, spp, image⟩

/-- `read_tiff` (src/tiff.py lines 93-170): parse the directory, run the
cross-field asserts, decode the strips. -/
def readTiff (f : List Nat) : Except String TiffImage := do
  let dir ← parseDirectory f
  let _ ← checkDirectory dir
  readStrips f dir

/-! ## src/tiff.py : write_tiff -/

/-- `struct.pack("<H", i)` — out-of-range values raise `struct.error`. -/
def packU16 (n : Nat) : Except String (List Nat) :=
  if n < 65536 then .ok [n % 256, n / 256 % 256] else .error "struct.error"

/-- `struct.pack("<I", i)`. -/
def packU32 (n : Nat) : Except String (List Nat) :=
  if n < 4294967296 then
    .ok [n % 256, n / 256 % 256, n / 65536 % 256, n / 16777216 % 256]
  else .error "struct.error"

/-- `struct.pack("<i", i)` (signed 32-bit, two's complement). -/
def packI32 (n : Int) : Except String (List Nat) :=
  if -2147483648 ≤ n ∧ n < 2147483648 then
    let u := (n % 4294967296).toNat
    .ok [u % 256, u / 256 % 256, u / 65536 % 256, u / 16777216 % 256]
  else .error "struct.error"

/-- `values = value if isinstance(value, list) else [value]`. -/
def listify : PyVal → List PyVal
  | .list xs => xs
  | v => [v]

/-- The `towrite` serialization of one directory value (src/tiff.py lines
263-279): BYTE writes the byte string as is, ASCII joins the strings with
NUL and appends a trailing NUL, SHORT/LONG pack each int little-endian,
RATIONAL flattens the (numerator, denominator) tuples and packs each as a
signed 32-bit int.  Shape mismatches (e.g. packing a non-int as SHORT) are
the corresponding Python `struct.error`/`TypeError`. -/
def packValue (vt : Nat) (value : PyVal) : Except String (List Nat) :=
  if vt = VT_BYTE then
    match value with
    | .str s => .ok s
    | _ => .error "TypeError: write"
  else if vt = VT_ASCII then
    (listify value).foldlM (fun acc v =>
      match v with
      | .str s => .ok (acc ++ s ++ [0])
      | _ => .error "TypeError: join") []
  else if vt = VT_SHORT then
    (listify value).foldlM (fun acc v =>
      match v with
      | .int n =>
        if n < 0 then .error "struct.error"
        else do
          let b ← packU16 n.toNat
          .ok (acc ++ b)
      | _ => .error "struct.error") []
  else if vt = VT_LONG then
    (listify value).foldlM (fun acc v =>
      match v with
      | .int n =>
        if n < 0 then .error "struct.error"
        else do
          let b ← packU32 n.toNat
          .ok (acc ++ b)
      | _ => .error "struct.error") []
  else if vt = VT_RATIONAL then
    (listify value).foldlM (fun acc v =>
      match v with
      | .pair a b => do
        let ba ← packI32 a
        let bb ← packI32 b
        .ok (acc ++ ba ++ bb)
      | _ => .error "TypeError: sum of tuples") []
  else .error "KeyError: VALUETYPE"

/-- The entry-writing loop of `write_tiff` (src/tiff.py lines 254-289):
for each `(tag, valuetype, value)` write the 12-byte entry — tag, type,
element count, then either the inline value padded/truncated to 4 bytes or
a pointer into the extra-data region (when the packed value exceeds 4
bytes).  Returns (entry bytes, extra data). -/
def serializeEntries (entries : List (Nat × Nat × PyVal)) (extradatastart : Nat) :
    Except String (List Nat × List Nat) :=
  entries.foldlM (fun (acc : List Nat × List Nat) e => do
    let (tag, vt, value) := e
    let tagB ← packU16 tag
    let vtB ← packU16 vt
    let towrite ← packValue vt value
    let typelen ← valueTypeLen vt
    let length := towrite.length / typelen
    let lenB ← packU32 length
    if towrite.length > 4 then do
      let ptr ← packU32 (extradatastart + acc.2.length)
      .ok (acc.1 ++ tagB ++ vtB ++ lenB ++ ptr, acc.2 ++ towrite)
    else
      .ok (acc.1 ++ tagB ++ vtB ++ lenB ++ (towrite ++ [0, 0, 0, 0]).take 4, acc.2))
    ([], [])

/-- File assembly of `write_tiff` (src/tiff.py lines 236-293): header, the
directory-start pointer (the strips start at `FIRSTSTRIP = 8`, exactly
where the 4-byte header plus the 4-byte pointer end, so the padding loop
writes nothing), the compressed strips, the entry count, the entries, the
end-of-directory padding, and the extra-data region. -/
def assembleTiffFile (stripdata : List (List Nat)) (entries : List (Nat × Nat × PyVal)) :
    Except String (List Nat) := do
  let strips := stripdata.flatten
  let directorystart := 8 + strips.length
  let dirptr ← packU32 directorystart
  let n ← packU16 entries.length
  let extradatastart := directorystart + 2 + DIRECTORY_ENTRY_LENGTH * entries.length +
    END_OF_DIRECTORY_PADDING.length
  let ed ← serializeEntries entries extradatastart
  .ok (TIFF_HEADER ++ dirptr ++ strips ++ n ++ ed.1 ++ END_OF_DIRECTORY_PADDING ++ ed.2)

/-- The `directory` dict of `write_tiff` (src/tiff.py lines 186-205),
listed in the order the entry loop visits it (`for info in FIELD`, lines
254-258), as `(tag, valuetype, value)` triples.  Note `sampleformat`: the
writer stores the single SHORT `SAMPLEFORMAT_FLOAT`, not one value per
channel. -/
def writeDirectory (height width nrchannels : Nat)
    (stripoffsets stripbytecounts : List Nat) : List (Nat × Nat × PyVal) := [
  (0x100, VT_SHORT, .int (width : Nat)),
  (0x101, VT_SHORT, .int (height : Nat)),
  (0x102, VT_SHORT, .list (List.replicate nrchannels (.int 32))),
  (0x103, VT_SHORT, .int (COMPRESSION_LZW : Nat)),
  (0x106, VT_SHORT, .int (PHOTOMETRIC_RGB : Nat)),
  (0x111, VT_LONG, .list (stripoffsets.map (fun o => .int (o : Nat)))),
  (0x112, VT_SHORT, .int 1),
  (0x115, VT_SHORT, .int (nrchannels : Nat)),
  (0x116, VT_SHORT, .int 32),
  (0x117, VT_LONG, .list (stripbytecounts.map (fun c => .int (c : Nat)))),
  (0x11C, VT_SHORT, .int 1),
  (0x11E, VT_RATIONAL, .pair 0 1),
  (0x11F, VT_RATIONAL, .pair 0 1),
  (0x132, VT_ASCII, .str ("some time long ago".data.map Char.toNat)),
  (0x13D, VT_SHORT, .int (PREDICTOR_FLOAT : Nat)),
  (0x152, VT_SHORT, .int (EXTRASAMPLES_ALPHA : Nat)),
  (0x153, VT_SHORT, .int (SAMPLEFORMAT_FLOAT : Nat)),
  (0x2bc, VT_BYTE, .str ("dontcare".data.map Char.toNat))]

/-- `write_tiff` (src/tiff.py lines 173-293).  The image is the flat
little-endian byte buffer of a `(height, width, nrchannels)` float32 numpy
array (its length is intrinsically `height*width*nrchannels*4`); the shape
asserts of lines 178-180 come first.  Per strip: slice up to
`ROWSPERSTRIP = 32` rows, apply the forward float predictor, LZW-compress,
and record offset (starting at `FIRSTSTRIP = 8`) and byte count. -/
def writeTiff (height width nrchannels : Nat) (data : List Nat) :
    Except String (List Nat) := do
  let _ ← pyAssert (decide (nrchannels = 4)) "AssertionError: nrchannels == 4"
  let _ ← pyAssert (decide (data.length = height * width * nrchannels * 4))
    "ValueError: numpy shape"
  let ROWSPERSTRIP := 32
  let BITSPERSAMPLE := 32
  let nrstrips ← nrstripsOf height ROWSPERSTRIP
  let rowbytes := width * nrchannels * (BITSPERSAMPLE / 8)
  let stripdata ← (List.range nrstrips).foldlM (fun (acc : List (List Nat)) stripnr => do
    let nrrows := min (height - ROWSPERSTRIP * stripnr) ROWSPERSTRIP
    let bytespersample := BITSPERSAMPLE / 8
    let stripstring := (data.drop (stripnr * ROWSPERSTRIP * rowbytes)).take
      (ROWSPERSTRIP * rowbytes)
    let predicted := predictedstrip nrrows width nrchannels bytespersample stripstring
    let compressed ← compress predicted
    pure (acc ++ [compressed])) []
  let stripbytecounts := stripdata.map List.length
  let stripoffsets := (List.range nrstrips).map (fun i =>
    8 + ((stripdata.take i).map List.length).sum)
  assembleTiffFile stripdata
    (writeDirectory height width nrchannels stripoffsets stripbytecounts)

/-- `read_tiff(write_tiff(data))` on a buffer of the given shape. -/
def writeReadRoundtrip (height width nrchannels : Nat) (data : List Nat) :
    Except String TiffImage :=
  writeTiff height width nrchannels data >>= readTiff

/-! ## Concrete test inputs

Hand-assembled input files for the witnesses and counterexamples: a
well-formed one-pixel float32 RGBA TIFF (as an external producer would
write it, with `sampleformat` declared once per channel), and the same
file with a duplicated `orientation` entry. -/

/-- 16 zero bytes: one 1x1 RGBA float32 pixel (0.0, 0.0, 0.0, 0.0). -/
def zeroPixel : List Nat := List.replicate 16 0

/-- Its compressed strip (the forward predictor maps zeros to zeros). -/
def zeroStrip : List Nat := (compress (predictedstrip 1 1 4 4 zeroPixel)).toOption.getD []

/-- Directory entries of a well-formed 1x1 RGBA float32 LZW TIFF.  Unlike
`write_tiff`'s output, `sampleformat` is declared per channel
(`[3, 3, 3, 3]`), which is what the `FIELD` table accepts. -/
def validTestEntries : List (Nat × Nat × PyVal) := [
  (0x100, VT_SHORT, .int 1),
  (0x101, VT_SHORT, .int 1),
  (0x102, VT_SHORT, .list [.int 32, .int 32, .int 32, .int 32]),
  (0x103, VT_SHORT, .int 5),
  (0x106, VT_SHORT, .int 2),
  (0x111, VT_LONG, .list [.int 8]),
  (0x112, VT_SHORT, .int 1),
  (0x115, VT_SHORT, .int 4),
  (0x116, VT_SHORT, .int 32),
  (0x117, VT_LONG, .list [.int (zeroStrip.length : Nat)]),
  (0x11C, VT_SHORT, .int 1),
  (0x11E, VT_RATIONAL, .pair 0 1),
  (0x11F, VT_RATIONAL, .pair 0 1),
  (0x132, VT_ASCII, .str ("some time long ago".data.map Char.toNat)),
  (0x13D, VT_SHORT, .int 3),
  (0x152, VT_SHORT, .int 1),
  (0x153, VT_SHORT, .list [.int 3, .int 3, .int 3, .int 3]),
  (0x2bc, VT_BYTE, .str ("dontcare".data.map Char.toNat))]

/-- The same directory with the `orientation` (0x112) entry written twice:
19 entries, one duplicated known tag, every required tag still present. -/
def dupTestEntries : List (Nat × Nat × PyVal) :=
  validTestEntries.take 7 ++ [(0x112, VT_SHORT, .int 1)] ++ validTestEntries.drop 7

/-- A well-formed 1x1 RGBA float32 LZW TIFF file. -/
def validTestFile : List Nat :=
  (assembleTiffFile [zeroStrip] validTestEntries).toOption.getD []

/-- The same file with the duplicated `orientation` entry. -/
def dupTestFile : List Nat :=
  (assembleTiffFile [zeroStrip] dupTestEntries).toOption.getD []

/-- The image both files decode to. -/
def zeroImage : TiffImage := ⟨1, 1, 4, zeroPixel⟩

/-- The file `write_tiff` produces for the 1x1 all-zero RGBA image
(named so the write-then-read evaluation can be staged). -/
def writtenZeroFile : List Nat := (writeTiff 1 1 4 zeroPixel).toOption.getD []

instance {ε α : Type} [DecidableEq ε] [DecidableEq α] : DecidableEq (Except ε α) :=
  fun a b =>
  match a, b with
  | .ok x, .ok y =>
    if h : x = y then .isTrue (by rw [h]) else .isFalse (fun heq => h (Except.ok.inj heq))
  | .error x, .error y =>
    if h : x = y then .isTrue (by rw [h]) else .isFalse (fun heq => h (Except.error.inj heq))
  | .ok _, .error _ => .isFalse (fun heq => Except.noConfusion heq)
  | .error _, .ok _ => .isFalse (fun heq => Except.noConfusion heq)

/-! ## Theorems -/

/-- C10: `compress` applied to the empty byte string errors out with the
`KeyError` of the final-code lookup (`currentlookup['value']` on the
never-advanced root node) instead of returning a compressed stream — so
returning normally is only possible for non-empty input (witnessed here by
the one-byte buffer `[65]`). -/
theorem c10_compress_empty_error :
    compress [] = .error "KeyError" ∧ ∃ out, compress [65] = .ok out :=
  ⟨rfl, ⟨_, rfl⟩⟩

/-- C2 (code bug evidence): the LZW round trip `decompress(compress(B))`
does not return `B` for the empty buffer — `compress` raises `KeyError`
(the source docstring promises `decompress(compress(x)) == x` with no
restriction on `x`). -/
theorem c2_roundtrip_fails_on_empty :
    lzwRoundtrip [] = .error "KeyError" := rfl

set_option maxHeartbeats 1000000 in
/-- `write_tiff` on the 1x1 all-zero RGBA image produces `writtenZeroFile`. -/
theorem writeTiff_zeroPixel_eq :
    writeTiff 1 1 4 zeroPixel = .ok writtenZeroFile := by decide

set_option maxHeartbeats 1000000 in
/-- `read_tiff` rejects the file `write_tiff` just produced. -/
theorem readTiff_writtenZeroFile :
    readTiff writtenZeroFile = .error "Value not acceptable" := by decide

/-- C1 (code bug evidence): `read_tiff(write_tiff(image))` fails for every
image — here evaluated on the 1x1 all-zero RGBA float32 buffer.
`write_tiff` stores `sampleformat` as the single SHORT `3`
(src/tiff.py line 203), while the `FIELD` table that `read_tiff` validates
against only accepts `[3, 3, 3, 3]` (line 66), so the reader rejects the
writer's own file with "Value not acceptable" before any strip is read. -/
theorem c1_write_read_fails :
    writeReadRoundtrip 1 1 4 zeroPixel = .error "Value not acceptable" := by
  rw [writeReadRoundtrip, writeTiff_zeroPixel_eq]
  show readTiff writtenZeroFile = _
  exact readTiff_writtenZeroFile

/-- C4 counterexample: the write path never succeeds on a 3-channel buffer
of any shape — `write_tiff` asserts `nrchannels == 4` first thing
(src/tiff.py line 180), so no `(H, W, 3)` float buffer is writable, contrary
to the claim's "for some float buffer of shape (H, W, 3) the write path
succeeds". -/
theorem c4_counterexample :
    ¬ ∃ (height width : Nat) (data : List Nat) (out : List Nat),
        writeTiff height width 3 data = .ok out := by
  rintro ⟨h, w, d, out, hok⟩
  simp [writeTiff, pyAssert, Bind.bind, Except.bind] at hok

set_option maxHeartbeats 1000000 in
/-- C4 (amended): the system reads and writes images with exactly 4
channels of 32-bit float samples: the write path succeeds on a `(1, 1, 4)`
float32 buffer, and the read path succeeds on a well-formed 4-channel
float32 LZW TIFF (one whose `sampleformat` is declared per channel). -/
theorem c4_four_channel_support :
    (∃ out, writeTiff 1 1 4 zeroPixel = .ok out) ∧
    readTiff validTestFile = .ok zeroImage :=
  ⟨⟨writtenZeroFile, writeTiff_zeroPixel_eq⟩, by decide⟩


/-! ## Directory-validation lemmas -/
theorem exceptBind_ok {α β : Type} {x : Except String α} {f : α → Except String β} {b : β}
    (h : (x >>= f) = .ok b) : ∃ a, x = .ok a ∧ f a = .ok b := by
  cases x with
  | ok a => exact ⟨a, rfl, h⟩
  | error e => simp [Bind.bind, Except.bind] at h

theorem pyAssert_ok {b : Bool} {m : String} {u : Unit} (h : pyAssert b m = .ok u) :
    b = true := by
  cases b
  · simp [pyAssert] at h
  · rfl

theorem parseEntry_known_acceptable {f : List Nat} {ds i : Nat} {nv : String × PyVal}
    (h : parseEntry f ds i = .ok nv) :
    ∃ fi ∈ FIELD, fi.name = nv.1 ∧ ∀ acc, fi.acceptable = some acc → nv.2 ∈ acc := by
  simp only [parseEntry] at h
  obtain ⟨tag, _, h⟩ := exceptBind_ok h
  obtain ⟨valuetype, _, h⟩ := exceptBind_ok h
  obtain ⟨length, _, h⟩ := exceptBind_ok h
  obtain ⟨typelen, _, h⟩ := exceptBind_ok h
  obtain ⟨datapos, _, h⟩ := exceptBind_ok h
  obtain ⟨values, _, h⟩ := exceptBind_ok h
  cases hfb : fieldById tag with
  | none => rw [hfb] at h; simp at h
  | some fi =>
    rw [hfb] at h
    obtain ⟨value, _, h⟩ := exceptBind_ok h
    have hfiF : fi ∈ FIELD := List.mem_of_find?_eq_some hfb
    cases hacc : fi.acceptable with
    | none =>
      rw [hacc] at h
      have h2 : (Except.ok (fi.name, value) : Except String (String × PyVal)) =
          Except.ok nv := h
      simp only [Except.ok.injEq] at h2
      refine ⟨fi, hfiF, ?_, ?_⟩
      · rw [← h2]
      · intro acc hacc2
        rw [hacc] at hacc2
        exact absurd hacc2 (by simp)
    | some acc =>
      rw [hacc] at h
      have h2 : (if value ∈ acc then
            (Except.ok (fi.name, value) : Except String (String × PyVal))
          else Except.error "Value not acceptable") = Except.ok nv := h
      split at h2
      · simp only [Except.ok.injEq] at h2
        refine ⟨fi, hfiF, ?_, ?_⟩
        · rw [← h2]
        · intro acc2 hacc2
          rw [hacc] at hacc2
          cases hacc2
          rw [← h2]
          assumption
      · simp at h2

theorem foldlM_except_inv {α β : Type} (P : β → Prop) (step : β → α → Except String β)
    (hstep : ∀ b a b', P b → step b a = .ok b' → P b') :
    ∀ (l : List α) (b0 : β), P b0 → ∀ b, l.foldlM step b0 = .ok b → P b := by
  intro l
  induction l with
  | nil =>
    intro b0 h0 b hfold
    simp only [List.foldlM_nil] at hfold
    have h2 : (Except.ok b0 : Except String β) = .ok b := hfold
    cases h2
    exact h0
  | cons x xs ih =>
    intro b0 h0 b hfold
    rw [List.foldlM_cons] at hfold
    obtain ⟨b1, hb1, hrest⟩ := exceptBind_ok hfold
    exact ih b1 (hstep b0 x b1 h0 hb1) b hrest

theorem upsert_mem {d : List (String × PyVal)} {k : String} {v : PyVal} :
    ∀ p ∈ upsert d k v, p = (k, v) ∨ p ∈ d := by
  intro p hp
  rw [upsert] at hp
  split at hp
  · rw [List.mem_map] at hp
    obtain ⟨q, hq, heq⟩ := hp
    by_cases h : q.1 = k
    · rw [if_pos h] at heq
      exact Or.inl heq.symm
    · rw [if_neg h] at heq
      exact Or.inr (heq ▸ hq)
  · rw [List.mem_append] at hp
    rcases hp with hp | hp
    · exact Or.inr hp
    · simp only [List.mem_singleton] at hp
      exact Or.inl hp

theorem upsert_keys_nodup {d : List (String × PyVal)} {k : String} {v : PyVal}
    (h : (d.map Prod.fst).Nodup) : ((upsert d k v).map Prod.fst).Nodup := by
  rw [upsert]
  split
  · have hkeys : (d.map (fun p => if p.1 = k then (k, v) else p)).map Prod.fst =
        d.map Prod.fst := by
      rw [List.map_map]
      apply List.map_congr_left
      intro p _
      by_cases hpk : p.1 = k
      · simp [hpk]
      · simp [hpk]
    rw [hkeys]
    exact h
  · rename_i hany
    rw [List.map_append]
    rw [List.nodup_append]
    refine ⟨h, by simp, ?_⟩
    intro a ha hb
    simp only [List.map_cons, List.map_nil, List.mem_singleton] at hb
    subst hb
    rw [List.mem_map] at ha
    obtain ⟨p, hp, hp1⟩ := ha
    exact hany (List.any_eq_true.2 ⟨p, hp, by simp [hp1]⟩)

theorem parseDirectory_sound {f : List Nat} {dir : List (String × PyVal)}
    (h : parseDirectory f = .ok dir) :
    (dir.map Prod.fst).Nodup ∧
    ∀ p ∈ dir, ∃ fi ∈ FIELD, fi.name = p.1 ∧
      ∀ acc, fi.acceptable = some acc → p.2 ∈ acc := by
  simp only [parseDirectory] at h
  obtain ⟨u0, _, h⟩ := exceptBind_ok h
  obtain ⟨ds, _, h⟩ := exceptBind_ok h
  obtain ⟨dl, _, h⟩ := exceptBind_ok h
  refine foldlM_except_inv
    (fun d => (d.map Prod.fst).Nodup ∧
      ∀ p ∈ d, ∃ fi ∈ FIELD, fi.name = p.1 ∧
        ∀ acc, fi.acceptable = some acc → p.2 ∈ acc)
    _ ?_ (List.range dl) [] (by simp) dir h
  intro d i d' hP hstep
  obtain ⟨nv, hnv, hd'⟩ := exceptBind_ok hstep
  have hd2 : (Except.ok (upsert d nv.1 nv.2) : Except String (List (String × PyVal))) =
      .ok d' := hd'
  cases hd2
  have hfi := parseEntry_known_acceptable hnv
  refine ⟨upsert_keys_nodup hP.1, ?_⟩
  intro p hp
  rcases upsert_mem p hp with hpk | hpd
  · subst hpk
    exact hfi
  · exact hP.2 p hpd

theorem all_required_present {dir : List (String × PyVal)}
    (hnodup : (dir.map Prod.fst).Nodup)
    (hknown : ∀ p ∈ dir, p.1 ∈ FIELD.map FieldInfo.name)
    (hlen : FIELD.length = dir.length) :
    ∀ fi ∈ FIELD, ∃ v, (fi.name, v) ∈ dir := by
  have hNnodup : (FIELD.map FieldInfo.name).Nodup := by decide
  have hsub : (dir.map Prod.fst).toFinset ⊆ (FIELD.map FieldInfo.name).toFinset := by
    intro a ha
    rw [List.mem_toFinset] at ha
    rw [List.mem_toFinset]
    obtain ⟨p, hp, hp1⟩ := List.mem_map.1 ha
    exact hp1 ▸ hknown p hp
  have hcard1 : (dir.map Prod.fst).toFinset.card = dir.length := by
    rw [List.toFinset_card_of_nodup hnodup, List.length_map]
  have hcard2 : (FIELD.map FieldInfo.name).toFinset.card = FIELD.length := by
    rw [List.toFinset_card_of_nodup hNnodup, List.length_map]
  have heq : (dir.map Prod.fst).toFinset = (FIELD.map FieldInfo.name).toFinset :=
    Finset.eq_of_subset_of_card_le hsub (by omega)
  intro fi hfi
  have hmem : fi.name ∈ dir.map Prod.fst := by
    rw [← List.mem_toFinset, heq, List.mem_toFinset]
    exact List.mem_map.2 ⟨fi, hfi, rfl⟩
  obtain ⟨p, hp, hp1⟩ := List.mem_map.1 hmem
  refine ⟨p.2, ?_⟩
  rw [← hp1, Prod.mk.eta]
  exact hp

/-- C9 (amended): whenever `read_tiff` succeeds, the parsed directory
carries only known tags with values inside their declared acceptable sets,
every one of the 18 required fields is present, and the cross-field
invariants hold: `len(bitspersample)` and `len(sampleformat)` both equal
the `samplesperpixel` value, and both strip lists have exactly
`ceil(height / rowsperstrip)` entries.  (Duplicated known tags are *not*
rejected — the directory is a dict, so the last occurrence wins; see the
counterexample.) -/
theorem c9_read_validation (f : List Nat) (img : TiffImage)
    (hok : readTiff f = .ok img) :
    ∃ dir, parseDirectory f = .ok dir ∧
      (∀ fi ∈ FIELD, ∃ v, (fi.name, v) ∈ dir) ∧
      (∀ p ∈ dir, ∃ fi ∈ FIELD, fi.name = p.1 ∧
        ∀ acc, fi.acceptable = some acc → p.2 ∈ acc) ∧
      (∃ bps sf so sbc spp hn rn nrstrips,
        getField dir "bitspersample" = .ok bps ∧ pyLen bps = .ok spp ∧
        getField dir "sampleformat" = .ok sf ∧ pyLen sf = .ok spp ∧
        getField dir "samplesperpixel" = .ok (.int (spp : Nat)) ∧
        (getField dir "height" >>= pyToNat) = .ok hn ∧
        (getField dir "rowsperstrip" >>= pyToNat) = .ok rn ∧
        nrstripsOf hn rn = .ok nrstrips ∧
        getField dir "stripoffsets" = .ok so ∧ pyLen so = .ok nrstrips ∧
        getField dir "stripbytecounts" = .ok sbc ∧ pyLen sbc = .ok nrstrips) := by
  simp only [readTiff] at hok
  obtain ⟨dir, hparse, hok⟩ := exceptBind_ok hok
  obtain ⟨u, hcheck, _⟩ := exceptBind_ok hok
  obtain ⟨hnodup, hent⟩ := parseDirectory_sound hparse
  simp only [checkDirectory] at hcheck
  obtain ⟨bps, hbps, hcheck⟩ := exceptBind_ok hcheck
  obtain ⟨sppV, hsppV, hcheck⟩ := exceptBind_ok hcheck
  obtain ⟨lenBps, hlenBps, hcheck⟩ := exceptBind_ok hcheck
  obtain ⟨u1, hass1, hcheck⟩ := exceptBind_ok hcheck
  have heq1 : PyVal.int (lenBps : Nat) = sppV := of_decide_eq_true (pyAssert_ok hass1)
  obtain ⟨sf, hsf, hcheck⟩ := exceptBind_ok hcheck
  obtain ⟨lenSf, hlenSf, hcheck⟩ := exceptBind_ok hcheck
  obtain ⟨u2, hass2, hcheck⟩ := exceptBind_ok hcheck
  have heq2 : PyVal.int (lenSf : Nat) = sppV := of_decide_eq_true (pyAssert_ok hass2)
  obtain ⟨hn, hh, hcheck⟩ := exceptBind_ok hcheck
  obtain ⟨rn, hrps, hcheck⟩ := exceptBind_ok hcheck
  obtain ⟨nrstrips, hns, hcheck⟩ := exceptBind_ok hcheck
  obtain ⟨so, hso, hcheck⟩ := exceptBind_ok hcheck
  obtain ⟨lenSo, hlenSo, hcheck⟩ := exceptBind_ok hcheck
  obtain ⟨u3, hass3, hcheck⟩ := exceptBind_ok hcheck
  have heq3 : lenSo = nrstrips := of_decide_eq_true (pyAssert_ok hass3)
  obtain ⟨sbc, hsbc, hcheck⟩ := exceptBind_ok hcheck
  obtain ⟨lenSbc, hlenSbc, hcheck⟩ := exceptBind_ok hcheck
  obtain ⟨u4, hass4, hcheck⟩ := exceptBind_ok hcheck
  have heq4 : lenSbc = nrstrips := of_decide_eq_true (pyAssert_ok hass4)
  have hlen : FIELD.length = dir.length := of_decide_eq_true (pyAssert_ok hcheck)
  have hknown : ∀ p ∈ dir, p.1 ∈ FIELD.map FieldInfo.name := by
    intro p hp
    obtain ⟨fi, hfi, hname, _⟩ := hent p hp
    exact List.mem_map.2 ⟨fi, hfi, hname⟩
  have hsfeq : lenSf = lenBps := by
    have := heq1 ▸ heq2
    exact_mod_cast PyVal.int.inj this
  refine ⟨dir, hparse, all_required_present hnodup hknown hlen, hent,
    bps, sf, so, sbc, lenBps, hn, rn, nrstrips, hbps, hlenBps, hsf, ?_, ?_, hh, hrps,
    hns, hso, ?_, hsbc, ?_⟩
  · rw [hlenSf, hsfeq]
  · rw [hsppV, ← heq1]
  · rw [hlenSo, heq3]
  · rw [hlenSbc, heq4]

set_option maxHeartbeats 1000000 in
/-- Witness for C9 (amended) at the concrete well-formed file: reading it
succeeds, and the theorem yields the parsed directory with every required
field present. -/
theorem c9_read_validation_witness :
    ∃ dir, parseDirectory validTestFile = .ok dir ∧
      ∀ fi ∈ FIELD, ∃ v, (fi.name, v) ∈ dir := by
  obtain ⟨dir, h1, h2, -, -⟩ := c9_read_validation validTestFile zeroImage (by decide)
  exact ⟨dir, h1, h2⟩

set_option maxHeartbeats 1000000 in
/-- C9 counterexample: a directory with a *duplicated* known tag is
accepted by `read_tiff`.  `dupTestFile` declares 19 entries — every
required tag once, plus `orientation` (0x112) a second time — and decodes
successfully: the duplicate overwrites the dict slot, so the final
`len(FIELD) == len(directory)` count still passes.  The claim's "no
unexpected extra or duplicate entries" is therefore not enforced. -/
theorem c9_counterexample :
    readTiff dupTestFile = .ok zeroImage ∧
    dupTestEntries.length = FIELD.length + 1 ∧
    (dupTestEntries.filter (fun e => e.1 = 0x112)).length = 2 :=
  ⟨by decide, by decide, by decide⟩


/-- C5: whenever the decompress loop reads the END-OF-INFORMATION code
(257) it stops: if the last bit of the EOI code falls inside the last byte
of the buffer (`(bitoffset + bitwidth - 1) / 8 == len(bytelist) - 1`,
Python floor division) the accumulated output is returned, and otherwise —
trailing bits beyond the EOI completing further bytes — the decode fails
with the "End of info code, but not at the end of the string" error. -/
theorem c5_eoi_termination (bytelist : List Nat) (s : DecompressState) (fuel : Nat)
    (hguard : (s.bitoffset / 8 : Int) ≠ (bytelist.length : Int) - 1)
    (hcode : readCode bytelist s.bitoffset s.bitwidth = END_OF_INFO_CODE) :
    decompressLoop (fuel + 1) bytelist s =
      if ((s.bitoffset : Int) + s.bitwidth - 1).fdiv 8 = (bytelist.length : Int) - 1 then
        .ok s.outputbytes
      else .error "End of info code, but not at the end of the string" := by
  rw [decompressLoop]
  rw [if_neg hguard]
  simp only [decompressStep, hcode]
  norm_num [CLEAR_CODE, END_OF_INFO_CODE]
  by_cases hc : ((s.bitoffset : Int) + s.bitwidth - 1).fdiv 8 = (bytelist.length : Int) - 1
  · simp only [if_pos hc]
  · simp only [if_neg hc]
/-- Witness for C5: a 2-byte stream whose first 9 bits are the EOI code
ends exactly in the last byte, so the loop returns the (empty) output. -/
theorem c5_eoi_termination_witness :
    decompressLoop 1 [128, 128] initDecompressState = .ok [] :=
  (c5_eoi_termination [128, 128] initDecompressState 0 (by decide) (by decide)).trans
    (by decide)

/-- C6: resolution of a non-reserved code during decompression: a code
below the dictionary length is looked up directly and appended to the
output; a code equal to the dictionary length (the next-to-be-assigned
code) produces `previous-output + previous-output[0]`; a code strictly
greater fails the `assert code == len(lookup)` and aborts the decode. -/
theorem c6_code_resolution (bytelist : List Nat) (s : DecompressState)
    (hwf : ∀ e ∈ s.lookup, e ≠ [])
    (hc1 : readCode bytelist s.bitoffset s.bitwidth ≠ CLEAR_CODE)
    (hc2 : readCode bytelist s.bitoffset s.bitwidth ≠ END_OF_INFO_CODE) :
    (readCode bytelist s.bitoffset s.bitwidth < s.lookup.length →
      ∃ s', decompressStep bytelist s = .cont s' ∧
        s'.outputbytes =
          s.outputbytes ++ s.lookup.getD (readCode bytelist s.bitoffset s.bitwidth) [])
    ∧ (∀ prev, readCode bytelist s.bitoffset s.bitwidth = s.lookup.length →
        s.lastbytes = some prev → prev ≠ [] →
        ∃ s', decompressStep bytelist s = .cont s' ∧
          s'.outputbytes = s.outputbytes ++ (prev ++ prev.take 1))
    ∧ (s.lookup.length < readCode bytelist s.bitoffset s.bitwidth →
        decompressStep bytelist s = .fail "AssertionError: code == len(lookup)") := by
  refine ⟨?_, ?_, ?_⟩
  · intro hlt
    have hmem : s.lookup.getD (readCode bytelist s.bitoffset s.bitwidth) [] ∈ s.lookup := by
      rw [List.getD_eq_getElem _ _ hlt]
      exact List.getElem_mem _
    have hne := hwf _ hmem
    simp only [decompressStep, if_neg hc1, if_neg hc2, if_pos hlt]
    cases hL : s.lookup.getD (readCode bytelist s.bitoffset s.bitwidth) [] with
    | nil => exact absurd hL hne
    | cons h0 t =>
      simp only [hL, List.head?_cons]
      cases hlb : s.lastbytes <;> split <;> exact ⟨_, rfl, rfl⟩
  · intro prev heq hlb hne
    have hnotlt : ¬ readCode bytelist s.bitoffset s.bitwidth < s.lookup.length := by omega
    simp only [decompressStep, if_neg hc1, if_neg hc2, if_neg hnotlt, if_pos heq, hlb]
    cases prev with
    | nil => exact absurd rfl hne
    | cons p0 pt =>
      simp only [List.head?_cons, List.cons_append, List.head?_cons]
      split <;> exact ⟨_, rfl, rfl⟩
  · intro hgt
    have h1 : ¬ readCode bytelist s.bitoffset s.bitwidth < s.lookup.length := by omega
    have h2 : readCode bytelist s.bitoffset s.bitwidth ≠ s.lookup.length := by omega
    simp only [decompressStep, if_neg hc1, if_neg hc2, if_neg h1, if_neg h2]
/-- Witness for C6 (direct-lookup case): code 65 against the initial
dictionary, with previous output `[5]` and output so far `[9]`. -/
theorem c6_code_resolution_witness :
    ∃ s', decompressStep [32, 128]
        { lookup := initLookup, lastbytes := some [5], outputbytes := [9],
          bitoffset := 0, bitwidth := 9 } = .cont s' ∧
      s'.outputbytes = [9, 65] := by
  obtain ⟨s', h1, h2⟩ :=
    (c6_code_resolution [32, 128]
      { lookup := initLookup, lastbytes := some [5], outputbytes := [9],
        bitoffset := 0, bitwidth := 9 }
      (by decide) (by decide) (by decide)).1 (by decide)
  exact ⟨s', h1, h2.trans (by decide)⟩

/-- C7: code-width maintenance of the decompressor: a CLEAR code resets the
state (width back to 9, dictionary truncated to its 258 initial entries,
previous-output tracking cleared, bit offset advanced by the old width),
and for any other processed code the width is incremented exactly when the
post-append dictionary size equals `(1 << width) - 1` while `width < 12`. -/
theorem c7_width_growth_and_clear (bytelist : List Nat) (s : DecompressState) :
    (readCode bytelist s.bitoffset s.bitwidth = CLEAR_CODE →
      decompressStep bytelist s = .cont
        { lookup := s.lookup.take 0x102, lastbytes := none,
          outputbytes := s.outputbytes, bitoffset := s.bitoffset + s.bitwidth,
          bitwidth := START_BIT_WIDTH })
    ∧ (∀ s', readCode bytelist s.bitoffset s.bitwidth ≠ CLEAR_CODE →
        readCode bytelist s.bitoffset s.bitwidth ≠ END_OF_INFO_CODE →
        decompressStep bytelist s = .cont s' →
        (s'.bitwidth = s.bitwidth + 1 ↔
          s'.lookup.length = 2 ^ s.bitwidth - 1 ∧ s.bitwidth < MAX_BIT_WIDTH)) := by
  constructor
  · intro h
    simp only [decompressStep, if_pos h]
  · intro s' hc1 hc2 hstep
    simp only [decompressStep, if_neg hc1, if_neg hc2] at hstep
    split at hstep
    · exact absurd hstep (by simp)
    · rename_i lookedup heq
      split at hstep
      · split at hstep
        · exact absurd hstep (by simp)
        · split at hstep
          · rename_i hcond
            cases hstep
            simp_all
          · rename_i hcond
            cases hstep
            simp_all
      · split at hstep
        · rename_i hcond
          cases hstep
          simp_all
        · rename_i hcond
          cases hstep
          simp_all
/-- Witness for C7 (CLEAR case): a stream starting with the 9-bit CLEAR
code resets the initial state. -/
theorem c7_width_growth_and_clear_witness :
    decompressStep [128, 0] initDecompressState = .cont
      { lookup := initLookup.take 0x102, lastbytes := none, outputbytes := [],
        bitoffset := 9, bitwidth := START_BIT_WIDTH } :=
  (c7_width_growth_and_clear [128, 0] initDecompressState).1 (by decide)


/-! ## Predictor lemmas -/

theorem getD_lt_256 {l : List Nat} (hl : ∀ b ∈ l, b < 256) (i : Nat) : l.getD i 0 < 256 := by
  by_cases h : i < l.length
  · rw [List.getD_eq_getElem _ _ h]
    exact hl _ (List.getElem_mem h)
  · rw [List.getD_eq_default _ _ (by omega)]
    omega

theorem reshaped_getD (R W C S : Nat) (strip : List Nat) (u : Nat)
    (hu : u < R * (W * C * S)) :
    (reshapedcumsummedstrip R W C S strip).getD u 0 = strip.getD (fwdIndex W C S u) 0 := by
  rw [reshapedcumsummedstrip, List.getD_eq_getElem _ _ (by simpa using hu),
    List.getElem_ofFn]

theorem predicted_getD (R W C S : Nat) (strip : List Nat) (u : Nat)
    (hu : u < R * (W * C * S)) :
    (predictedstrip R W C S strip).getD u 0 =
      if u % (W * C * S) < C then (reshapedcumsummedstrip R W C S strip).getD u 0
      else ((reshapedcumsummedstrip R W C S strip).getD u 0 + 256 -
            (reshapedcumsummedstrip R W C S strip).getD (u - C) 0) % 256 := by
  rw [predictedstrip, List.getD_eq_getElem _ _ (by simpa using hu), List.getElem_ofFn]

theorem reshaped_getD_lt (R W C S : Nat) (strip : List Nat)
    (hbytes : ∀ b ∈ strip, b < 256) (u : Nat) :
    (reshapedcumsummedstrip R W C S strip).getD u 0 < 256 := by
  refine getD_lt_256 ?_ u
  intro b hb
  rw [reshapedcumsummedstrip, List.mem_ofFn] at hb
  obtain ⟨i, hi⟩ := hb
  rw [← hi]
  exact getD_lt_256 hbytes _

theorem telescope_sum (P g : Nat → Nat) :
    ∀ j, (∀ i, i ≤ j → g i < 256) →
      (∀ i, i ≤ j → P i = if i = 0 then g 0 else (g i + 256 - g (i - 1)) % 256) →
      ((List.range (j + 1)).map P).sum % 256 = g j := by
  intro j
  induction j with
  | zero =>
    intro hg hP
    have h0 := hP 0 le_rfl
    rw [if_pos rfl] at h0
    simp [List.range_succ, h0, Nat.mod_eq_of_lt (hg 0 le_rfl)]
  | succ j ih =>
    intro hg hP
    rw [List.range_succ, List.map_append, List.sum_append]
    have ih' := ih (fun i hi => hg i (by omega)) (fun i hi => hP i (by omega))
    have hPj := hP (j + 1) le_rfl
    rw [if_neg (Nat.succ_ne_zero j)] at hPj
    simp only [List.map_cons, List.map_nil, List.sum_cons, List.sum_nil]
    have h1 := hg j (by omega)
    have h2 := hg (j + 1) le_rfl
    rw [hPj]
    simp only [Nat.add_sub_cancel]
    omega

theorem cumsum_of_predicted (R W C S : Nat) (hW : 0 < W) (hC : 0 < C) (hS : 0 < S)
    (strip : List Nat) (hbytes : ∀ b ∈ strip, b < 256) :
    cumsummedstrip R W C S (predictedstrip R W C S strip) =
      reshapedcumsummedstrip R W C S strip := by
  have hrow : 0 < W * C * S := by positivity
  apply List.ext_getElem
  · simp [cumsummedstrip, reshapedcumsummedstrip]
  intro u hu1 hu2
  have hu : u < R * (W * C * S) := by simpa [cumsummedstrip] using hu1
  simp only [cumsummedstrip, reshapedcumsummedstrip, List.getElem_ofFn]
  set r := u / (W * C * S) with hr
  set t := u % (W * C * S) with ht
  set j := t / C with hj
  set k := t % C with hk
  have hrR : r < R := (Nat.div_lt_iff_lt_mul hrow).2 hu
  have htlt : t < W * C * S := Nat.mod_lt _ hrow
  have hkC : k < C := Nat.mod_lt _ hC
  have hjk : j * C + k = t := by rw [hj, hk, Nat.mul_comm]; exact Nat.div_add_mod t C
  have hut : (W * C * S) * r + t = u := Nat.div_add_mod u (W * C * S)
  have hcomm : r * (W * C * S) = (W * C * S) * r := Nat.mul_comm _ _
  have hik : ∀ i, i ≤ j → i * C + k < W * C * S := by
    intro i hi
    have h1 : i * C ≤ j * C := Nat.mul_le_mul_right C hi
    omega
  have hbound : ∀ i, i ≤ j → r * (W * C * S) + i * C + k < R * (W * C * S) := by
    intro i hi
    have h1 := hik i hi
    have h5 : r * (W * C * S) + (W * C * S) ≤ R * (W * C * S) := by
      calc r * (W * C * S) + W * C * S = (r + 1) * (W * C * S) := (Nat.succ_mul r _).symm
        _ ≤ R * (W * C * S) := Nat.mul_le_mul_right _ (by omega)
    omega
  have hchar : ∀ i, i ≤ j →
      (predictedstrip R W C S strip).getD (r * (W * C * S) + i * C + k) 0 =
        if i = 0 then
          (reshapedcumsummedstrip R W C S strip).getD (r * (W * C * S) + 0 * C + k) 0
        else
          ((reshapedcumsummedstrip R W C S strip).getD (r * (W * C * S) + i * C + k) 0 + 256 -
            (reshapedcumsummedstrip R W C S strip).getD (r * (W * C * S) + (i - 1) * C + k) 0)
            % 256 := by
    intro i hi
    rw [predicted_getD R W C S strip _ (hbound i hi)]
    have hmod : (r * (W * C * S) + i * C + k) % (W * C * S) = i * C + k := by
      rw [Nat.add_assoc, hcomm, Nat.mul_add_mod]
      exact Nat.mod_eq_of_lt (hik i hi)
    rw [hmod]
    by_cases hi0 : i = 0
    · subst hi0
      rw [if_pos (by omega), if_pos rfl]
    · obtain ⟨m, rfl⟩ : ∃ m, i = m + 1 := ⟨i - 1, by omega⟩
      have hCle : C ≤ (m + 1) * C := by
        have hsm : (m + 1) * C = m * C + C := by ring
        omega
      rw [if_neg (by omega), if_neg hi0]
      have hsub : r * (W * C * S) + (m + 1) * C + k - C = r * (W * C * S) + m * C + k := by
        have hsm : (m + 1) * C = m * C + C := by ring
        omega
      rw [hsub]
      simp only [Nat.add_sub_cancel]
  have htel := telescope_sum
    (fun i => (predictedstrip R W C S strip).getD (r * (W * C * S) + i * C + k) 0)
    (fun i => (reshapedcumsummedstrip R W C S strip).getD (r * (W * C * S) + i * C + k) 0)
    j (fun i _ => reshaped_getD_lt R W C S strip hbytes _) hchar
  rw [htel]
  show (reshapedcumsummedstrip R W C S strip).getD (r * (W * C * S) + j * C + k) 0 = _
  have hidx : r * (W * C * S) + j * C + k = u := by omega
  rw [hidx]
  exact reshaped_getD R W C S strip u hu

theorem invIndex_lt (R W C S : Nat) (hS : 0 < S)
    (v : Nat) (hv : v < R * (W * C * S)) : invIndex W C S v < R * (W * C * S) := by
  have hrow : 0 < W * C * S := by
    rcases Nat.eq_zero_or_pos (W * C * S) with h | h
    · rw [h, Nat.mul_zero] at hv
      omega
    · exact h
  simp only [invIndex]
  set r := v / (W * C * S) with hr
  set t := v % (W * C * S) with ht
  set q := t / S with hq
  set s := t % S with hs
  have hrR : r < R := (Nat.div_lt_iff_lt_mul hrow).2 hv
  have htlt : t < W * C * S := Nat.mod_lt _ hrow
  have hqA : q < W * C := (Nat.div_lt_iff_lt_mul hS).2 htlt
  have h2 : (S - 1 - s) * (W * C) ≤ (S - 1) * (W * C) :=
    Nat.mul_le_mul_right _ (by omega)
  have h3 : (S - 1) * (W * C) + W * C = S * (W * C) := by
    obtain ⟨m, hm⟩ : ∃ m, S = m + 1 := ⟨S - 1, by omega⟩
    subst hm
    simp [Nat.succ_mul]
  have h5 : r * (W * C * S) + W * C * S ≤ R * (W * C * S) := by
    calc r * (W * C * S) + W * C * S = (r + 1) * (W * C * S) := (Nat.succ_mul r _).symm
      _ ≤ R * (W * C * S) := Nat.mul_le_mul_right _ (by omega)
  calc r * (W * C * S) + (S - 1 - s) * (W * C) + q
      = r * (W * C * S) + ((S - 1 - s) * (W * C) + q) := by rw [Nat.add_assoc]
    _ < r * (W * C * S) + ((S - 1) * (W * C) + W * C) :=
        Nat.add_lt_add_left (Nat.add_lt_add_of_le_of_lt h2 hqA) _
    _ = r * (W * C * S) + S * (W * C) := by rw [h3]
    _ = r * (W * C * S) + W * C * S := by rw [Nat.mul_comm S (W * C)]
    _ ≤ R * (W * C * S) := h5

theorem fwd_of_inv (R W C S : Nat) (hS : 0 < S) (hA : 0 < W * C)
    (v : Nat) (hv : v < R * (W * C * S)) :
    fwdIndex W C S (invIndex W C S v) = v := by
  have hrow : 0 < W * C * S := by positivity
  simp only [invIndex, fwdIndex]
  set r := v / (W * C * S) with hr
  set t := v % (W * C * S) with ht
  set q := t / S with hq
  set s := t % S with hs
  have htlt : t < W * C * S := Nat.mod_lt _ hrow
  have hqA : q < W * C := (Nat.div_lt_iff_lt_mul hS).2 htlt
  have hsS : s < S := Nat.mod_lt _ hS
  have h3 : (S - 1) * (W * C) + W * C = S * (W * C) := by
    obtain ⟨m, rfl⟩ : ∃ m, S = m + 1 := ⟨S - 1, by omega⟩
    simp [Nat.succ_mul]
  have hrem : (S - 1 - s) * (W * C) + q < W * C * S := by
    have h2 : (S - 1 - s) * (W * C) ≤ (S - 1) * (W * C) :=
      Nat.mul_le_mul_right _ (by omega)
    have h4 : S * (W * C) = W * C * S := Nat.mul_comm _ _
    omega
  -- outer div/mod of the composed index
  have hdiv1 : (r * (W * C * S) + (S - 1 - s) * (W * C) + q) / (W * C * S) = r := by
    rw [Nat.add_assoc, Nat.mul_comm r, Nat.mul_add_div hrow]
    rw [Nat.div_eq_of_lt hrem]
    omega
  have hmod1 : (r * (W * C * S) + (S - 1 - s) * (W * C) + q) % (W * C * S) =
      (S - 1 - s) * (W * C) + q := by
    rw [Nat.add_assoc, Nat.mul_comm r, Nat.mul_add_mod]
    exact Nat.mod_eq_of_lt hrem
  rw [hdiv1, hmod1]
  -- inner div/mod over the plane size
  have hdiv2 : ((S - 1 - s) * (W * C) + q) / (W * C) = S - 1 - s := by
    rw [Nat.mul_comm (S - 1 - s), Nat.mul_add_div hA, Nat.div_eq_of_lt hqA]
    omega
  have hmod2 : ((S - 1 - s) * (W * C) + q) % (W * C) = q := by
    rw [Nat.mul_comm (S - 1 - s), Nat.mul_add_mod]
    exact Nat.mod_eq_of_lt hqA
  rw [hdiv2, hmod2]
  have hss : S - 1 - (S - 1 - s) = s := by omega
  rw [hss]
  have hqs : q * S + s = t := by rw [hq, hs, Nat.mul_comm]; exact Nat.div_add_mod t S
  have hut : (W * C * S) * r + t = v := Nat.div_add_mod v (W * C * S)
  have hcomm : r * (W * C * S) = (W * C * S) * r := Nat.mul_comm _ _
  omega

/-- C3: predictor round trip — for every float32 strip of shape
(rows, width, 4) with rows, width >= 1 (any byte content, any width,
including ones that do not tile the byte-plane boundaries evenly), the
read-side inverse transform applied to the write-side forward transform
reproduces the strip byte-for-byte. -/
theorem c3_predictor_roundtrip (R W : Nat) (hR : 1 ≤ R) (hW : 1 ≤ W)
    (strip : List Nat) (hlen : strip.length = R * (W * 4 * 4))
    (hbytes : ∀ b ∈ strip, b < 256) :
    unpredictedstrip R W 4 4 (predictedstrip R W 4 4 strip) = strip := by
  apply List.ext_getElem
  · simp [unpredictedstrip, hlen]
  intro v hv1 hv2
  have hv : v < R * (W * 4 * 4) := by simpa [unpredictedstrip] using hv1
  simp only [unpredictedstrip, List.getElem_ofFn]
  rw [cumsum_of_predicted R W 4 4 hW (by omega) (by omega) strip hbytes]
  rw [reshaped_getD R W 4 4 strip _ (invIndex_lt R W 4 4 (by omega) v hv)]
  rw [fwd_of_inv R W 4 4 (by omega) (by omega) v hv]
  exact List.getD_eq_getElem strip 0 (by omega)

/-- C8 (amended): pointwise characterization of the forward predictor.
In plane coordinates (row `r`, byte-plane `s`, in-plane sample position
`q`), the output keeps the input value only for `s = 0 ∧ q < 4` (the first
pixel of the most significant byte plane); every other value is the
wrapping 8-bit difference with the value 4 flat positions earlier — which,
for `q < 4` and `s ≥ 1`, lies in byte-plane `s - 1`: the difference crosses
the byte-plane seam. -/
theorem c8_forward_formula (R W : Nat) (strip : List Nat) (r s q : Nat)
    (hr : r < R) (hs : s < 4) (hq : q < 4 * W) :
    (predictedstrip R W 4 4 strip).getD (r * (W * 4 * 4) + (s * (W * 4) + q)) 0 =
      if s = 0 ∧ q < 4 then
        (reshapedcumsummedstrip R W 4 4 strip).getD (r * (W * 4 * 4) + (s * (W * 4) + q)) 0
      else
        ((reshapedcumsummedstrip R W 4 4 strip).getD
            (r * (W * 4 * 4) + (s * (W * 4) + q)) 0 + 256 -
          (reshapedcumsummedstrip R W 4 4 strip).getD
            (r * (W * 4 * 4) + (s * (W * 4) + q) - 4) 0) % 256 := by
  have hW : 0 < W := by omega
  have ht : s * (W * 4) + q < W * 4 * 4 := by
    have h1 : s * (W * 4) ≤ 3 * (W * 4) := Nat.mul_le_mul_right _ (by omega)
    omega
  have hu : r * (W * 4 * 4) + (s * (W * 4) + q) < R * (W * 4 * 4) := by
    have h5 : r * (W * 4 * 4) + W * 4 * 4 ≤ R * (W * 4 * 4) := by
      calc r * (W * 4 * 4) + W * 4 * 4 = (r + 1) * (W * 4 * 4) := (Nat.succ_mul r _).symm
        _ ≤ R * (W * 4 * 4) := Nat.mul_le_mul_right _ (by omega)
    omega
  rw [predicted_getD R W 4 4 strip _ hu]
  have hmod : (r * (W * 4 * 4) + (s * (W * 4) + q)) % (W * 4 * 4) = s * (W * 4) + q := by
    rw [Nat.mul_comm r, Nat.mul_add_mod]
    exact Nat.mod_eq_of_lt ht
  rw [hmod]
  have hcond : (s * (W * 4) + q < 4) ↔ (s = 0 ∧ q < 4) := by
    constructor
    · intro h
      rcases Nat.eq_zero_or_pos s with h0 | h0
      · subst h0
        simpa using h
      · exfalso
        have h2 : 1 * (W * 4) ≤ s * (W * 4) := Nat.mul_le_mul_right _ h0
        have h3 : 1 * (W * 4) = W * 4 := Nat.one_mul _
        omega
    · rintro ⟨h0, h4⟩
      subst h0
      simpa using h4
  rw [if_congr hcond rfl rfl]

/-- Witness for C3 at a concrete 1x1 strip. -/
theorem c3_predictor_roundtrip_witness :
    unpredictedstrip 1 1 4 4 (predictedstrip 1 1 4 4 (List.range 16)) = List.range 16 :=
  c3_predictor_roundtrip 1 1 (by decide) (by decide) (List.range 16) (by decide) (by decide)

/-- Witness for C8 (amended) at the concrete strip of the counterexample:
plane 1, first position — the else branch yields 255. -/
theorem c8_forward_formula_witness :
    (predictedstrip 1 1 4 4 (List.range 16)).getD 4 0 = 255 :=
  (c8_forward_formula 1 1 (List.range 16) 0 1 0 (by decide) (by decide) (by decide)).trans
    (by decide)

/-- C8 counterexample: in the forward predictor the first value of a
byte-plane is *not* kept as-is, and the difference *does* cross the
byte-plane boundary.  For the single-pixel strip `0, 1, ..., 15` the
byte-plane rearrangement starts with `3` (plane 0) and has `2` as the first
value of plane 1 (flat position 4); the claim mandates output `2` there,
but the writer emits `(2 + 256 - 3) % 256 = 255` — the wrapping difference
with the *last* value of plane 0. -/
theorem c8_counterexample :
    (predictedstrip 1 1 4 4 (List.range 16)).getD 4 0 = 255 ∧
    (reshapedcumsummedstrip 1 1 4 4 (List.range 16)).getD 4 0 = 2 ∧
    (reshapedcumsummedstrip 1 1 4 4 (List.range 16)).getD 0 0 = 3 ∧
    (255 : Nat) = (2 + 256 - 3) % 256 ∧ (255 : Nat) ≠ 2 :=
  ⟨rfl, rfl, rfl, rfl, by decide⟩

end Pytiff
